import Mathlib

/-!
# Todo request dispatcher (`main.go`)

A shallow embedding of the five functions of `main.go` (`handler`,
`CreateHandler`, `ReadHandler`, `UpdateHandler`, `DeleteHandler`) and of the
collaborators they call.

* A Go result pair `(events.APIGatewayProxyResponse, error)` becomes a triple
  `(response, error, world)`: the error is `none` for `nil` and `some msg` for
  an error whose `Error()` text is `msg`; `world` is the state the call leaves
  behind (table contents, the trace of store calls issued, identifiers minted).
* The libraries the handlers call are not part of `main.go`.  `json.Unmarshal`,
  the text `json.Marshal` produces, `dynamodbattribute.UnmarshalMap`, the
  identifier source and the store's faults are fields of `Env`, so every
  theorem holds for all of them; what a theorem needs from one of them is a
  hypothesis of that theorem.
* The DynamoDB table is modelled as a sequential key-value table with the hash
  key `id` of type string: a put replaces, a get returns what is stored, an
  update sets one attribute (creating the item when there is none), a delete
  removes.  Reads see the latest write; a call that fails leaves the table as
  it was.
* Every handler begins with `session.Must(session.NewSession(..))` and
  `dynamodb.New(sess)`.  These build the client value from the process
  environment and issue no store call; `session.Must` panics when no session
  can be built, and `uuid.New` panics when the system's random source fails.
  The handlers are modelled with the client built and the random source
  working: the client is the pair of `Env` and `World` a handler receives.
-/

namespace TodoService

/-! ## Data model -/

/-- The `Todo` struct (main.go:16-19); the json tags name the fields `id` and `task`. -/
structure Todo where
  ID : String
  Task : String
deriving DecidableEq

/-- The fields of `events.APIGatewayProxyRequest` that `main.go` reads.
`PathParameters` is a Go `map[string]string`, kept as an association list. -/
structure APIGatewayProxyRequest where
  HTTPMethod : String
  PathParameters : List (String × String)
  Body : String
deriving DecidableEq

/-- The fields of `events.APIGatewayProxyResponse` that `main.go` sets; a field
left out of a Go composite literal has its zero value (`""` for `Body`). -/
structure APIGatewayProxyResponse where
  StatusCode : Int
  Body : String
deriving DecidableEq

/-- Indexing a Go `map[string]string`: a missing key yields the zero value `""`. -/
def pathParam (m : List (String × String)) (k : String) : String :=
  (m.lookup k).getD ""

/-- The `dynamodb.AttributeValue` union: one constructor for each member. -/
inductive AttributeValue where
  | S (s : String)
  | N (n : String)
  | B (b : List UInt8)
  | BOOL (b : Bool)
  | NULL (b : Bool)
  | SS (ss : List String)
  | NS (ns : List String)
  | BS (bs : List (List UInt8))
  | L (l : List AttributeValue)
  | M (m : List (String × AttributeValue))

/-- A DynamoDB item or key, `map[string]*dynamodb.AttributeValue`. -/
abbrev Item := List (String × AttributeValue)

/-- The `dynamodb.PutItemInput` value built at main.go:58-61. -/
structure PutItemInput where
  Item : Item
  TableName : String

/-- The `dynamodb.GetItemInput` value built at main.go:83-90. -/
structure GetItemInput where
  Key : Item
  TableName : String

/-- The `dynamodb.UpdateItemInput` value built at main.go:133-150. -/
structure UpdateItemInput where
  ExpressionAttributeValues : Item
  ExpressionAttributeNames : List (String × String)
  TableName : String
  Key : Item
  ReturnValues : String
  UpdateExpression : String

/-- The `dynamodb.DeleteItemInput` value built at main.go:167-174. -/
structure DeleteItemInput where
  Key : Item
  TableName : String

/-- One call on the DynamoDB client, with the input it was given. -/
inductive StoreCall where
  | PutItem (input : PutItemInput)
  | GetItem (input : GetItemInput)
  | UpdateItem (input : UpdateItemInput)
  | DeleteItem (input : DeleteItemInput)

/-- What the handlers take from outside `main.go`.

* `AWS_REGION`, `DYNAMODB_TABLE`: the two environment variables read with `os.Getenv`.
* `jsonUnmarshal body`: the outcome of `json.Unmarshal([]byte(body), &todo)` on a
  zero `Todo`: the decoded value, or the text of the error.
* `jsonEncode todo`: the text `json.Marshal(todo)` produces.
* `UnmarshalMap item`: the outcome of `dynamodbattribute.UnmarshalMap(item, &todo)`.
* `uuidString n`: the text of the `n`-th identifier `uuid.New()` returns.
* `storeFault history call`: whether the store call `call`, issued after the calls
  `history`, fails (network, throttling, a rejected request), and with which text. -/
structure Env where
  AWS_REGION : String
  DYNAMODB_TABLE : String
  jsonUnmarshal : String → Except String Todo
  jsonEncode : Todo → String
  UnmarshalMap : Item → Except String Todo
  uuidString : Nat → String
  storeFault : List StoreCall → StoreCall → Option String

/-- The state a handler runs against: the items of the table, the store calls
issued so far (oldest first) and the number of identifiers minted so far. -/
structure World where
  table : List Item
  calls : List StoreCall
  minted : Nat

/-- A handler's outcome: the response, the Go error (`none` is `nil`) and the world after. -/
abbrev Result := APIGatewayProxyResponse × Option String × World

/-! ## Collaborators -/

/-- The call `uuid.New().String()`: the next identifier of the source. -/
def uuidNew (env : Env) (w : World) : String × World :=
  (env.uuidString w.minted, { w with minted := w.minted + 1 })

/-- The call `json.Marshal(todo)`.  The encoder fails only on unsupported types,
cyclic values and failing custom marshalers; a struct of two strings has none
of them, so the error is always `nil`. -/
def jsonMarshal (env : Env) (todo : Todo) : Except String String :=
  .ok (env.jsonEncode todo)

/-- How the `dynamodbattribute` encoder writes a Go string with its default
options: the empty string becomes `NULL`, any other string an `S` value. -/
def encodeString (s : String) : AttributeValue :=
  if s = "" then .NULL true else .S s

/-- The call `dynamodbattribute.MarshalMap(todo)`: one attribute for each field,
named by the struct tags of `Todo` (main.go:17-18).  A struct of two strings
always encodes, so the error is always `nil`. -/
def MarshalMap (todo : Todo) : Except String Item :=
  .ok [("id", encodeString todo.ID), ("task", encodeString todo.Task)]

/-- The hash key of an item: its `id` attribute, which the table requires to be
a non-empty string. -/
def keyOf (it : Item) : Option String :=
  match it.lookup "id" with
  | some (.S s) => if s = "" then none else some s
  | _ => none

/-- The hash key named by the `Key` of a get, update or delete: the map must
hold the `id` attribute, a non-empty string, and nothing else. -/
def keyOfKey (key : Item) : Option String :=
  match key with
  | [(name, .S s)] => if name = "id" ∧ s ≠ "" then some s else none
  | _ => none

/-- The item stored under a hash key, if there is one. -/
def findItem (t : List Item) (k : String) : Option Item :=
  t.find? (fun it => decide (keyOf it = some k))

/-- The table without the items stored under a hash key. -/
def removeKey (t : List Item) (k : String) : List Item :=
  t.filter (fun it => decide (keyOf it ≠ some k))

/-- Assignment `item[name] = v` on an attribute map. -/
def setAttr (it : Item) (name : String) (v : AttributeValue) : Item :=
  (name, v) :: it.filter (fun p => decide (p.1 ≠ name))

/-- The world after a store call has been issued. -/
def logCall (w : World) (c : StoreCall) : World :=
  { w with calls := w.calls ++ [c] }

/-- The call `svc.PutItem(input)`: unconditional put.  The call fails when the
store faults or the item has no valid hash key; otherwise the item replaces
whatever was stored under its key.  A failed call leaves the table as it was. -/
def PutItem (env : Env) (input : PutItemInput) (w : World) : Except String Unit × World :=
  match env.storeFault w.calls (.PutItem input) with
  | some err => (.error err, logCall w (.PutItem input))
  | none =>
    match keyOf input.Item with
    | none => (.error "ValidationException", logCall w (.PutItem input))
    | some k =>
      (.ok (), { logCall w (.PutItem input) with table := input.Item :: removeKey w.table k })

/-- The call `svc.GetItem(input)`: point lookup; the value is `result.Item`,
`none` standing for the nil map of a lookup that finds nothing. -/
def GetItem (env : Env) (input : GetItemInput) (w : World) : Except String (Option Item) × World :=
  match env.storeFault w.calls (.GetItem input) with
  | some err => (.error err, logCall w (.GetItem input))
  | none =>
    match keyOfKey input.Key with
    | none => (.error "ValidationException", logCall w (.GetItem input))
    | some k => (.ok (findItem w.table k), logCall w (.GetItem input))

/-- The attribute and value of an update expression.  The one form `main.go`
issues is modelled, a single `set` of a name placeholder to a value placeholder. -/
def updateAction (input : UpdateItemInput) : Option (String × AttributeValue) :=
  if input.UpdateExpression = "set #N = :n" then
    match input.ExpressionAttributeNames.lookup "#N", input.ExpressionAttributeValues.lookup ":n" with
    | some name, some v => some (name, v)
    | _, _ => none
  else none

/-- The call `svc.UpdateItem(input)`: sets one attribute of the item under the
key, creating the item from the key when there is none; the hash key attribute
itself cannot be assigned. -/
def UpdateItem (env : Env) (input : UpdateItemInput) (w : World) : Except String Unit × World :=
  match env.storeFault w.calls (.UpdateItem input) with
  | some err => (.error err, logCall w (.UpdateItem input))
  | none =>
    match keyOfKey input.Key, updateAction input with
    | some k, some (name, v) =>
      if name = "id" then (.error "ValidationException", logCall w (.UpdateItem input))
      else
        (.ok (), { logCall w (.UpdateItem input) with
                   table := setAttr ((findItem w.table k).getD input.Key) name v :: removeKey w.table k })
    | _, _ => (.error "ValidationException", logCall w (.UpdateItem input))

/-- The call `svc.DeleteItem(input)`: unconditional delete by key. -/
def DeleteItem (env : Env) (input : DeleteItemInput) (w : World) : Except String Unit × World :=
  match env.storeFault w.calls (.DeleteItem input) with
  | some err => (.error err, logCall w (.DeleteItem input))
  | none =>
    match keyOfKey input.Key with
    | none => (.error "ValidationException", logCall w (.DeleteItem input))
    | some k => (.ok (), { logCall w (.DeleteItem input) with table := removeKey w.table k })

/-! ## The handlers of `main.go` -/

/-- Embedding of `CreateHandler` (main.go:36-74). -/
def CreateHandler (env : Env) (request : APIGatewayProxyRequest) (w : World) : Result :=
  match env.jsonUnmarshal request.Body with
  | .error err => ({ StatusCode := 400, Body := "Invalid input" }, some err, w)
  | .ok parsed =>
    let minted := uuidNew env w
    let todo : Todo := { parsed with ID := minted.1 }
    match MarshalMap todo with
    | .error err => ({ StatusCode := 500, Body := "" }, some err, minted.2)
    | .ok av =>
      let input : PutItemInput := { Item := av, TableName := env.DYNAMODB_TABLE }
      match PutItem env input minted.2 with
      | (.error err, w2) => ({ StatusCode := 500, Body := "" }, some err, w2)
      | (.ok _, w2) =>
        match jsonMarshal env todo with
        | .error err => ({ StatusCode := 500, Body := "" }, some err, w2)
        | .ok body => ({ StatusCode := 200, Body := body }, none, w2)

/-- Embedding of `ReadHandler` (main.go:76-113). -/
def ReadHandler (env : Env) (request : APIGatewayProxyRequest) (w : World) : Result :=
  let input : GetItemInput :=
    { Key := [("id", .S (pathParam request.PathParameters "id"))],
      TableName := env.DYNAMODB_TABLE }
  match GetItem env input w with
  | (.error err, w1) => ({ StatusCode := 500, Body := "" }, some err, w1)
  | (.ok none, w1) => ({ StatusCode := 404, Body := "Todo not found" }, none, w1)
  | (.ok (some item), w1) =>
    match env.UnmarshalMap item with
    | .error err => ({ StatusCode := 500, Body := "" }, some err, w1)
    | .ok todo =>
      match jsonMarshal env todo with
      | .error err => ({ StatusCode := 500, Body := "" }, some err, w1)
      | .ok body => ({ StatusCode := 200, Body := body }, none, w1)

/-- Embedding of `UpdateHandler` (main.go:115-158). -/
def UpdateHandler (env : Env) (request : APIGatewayProxyRequest) (w : World) : Result :=
  match env.jsonUnmarshal request.Body with
  | .error err => ({ StatusCode := 400, Body := "Invalid input: " ++ err }, none, w)
  | .ok updatedTodo =>
    if updatedTodo.Task = "" then
      ({ StatusCode := 400, Body := "Task cannot be empty" }, none, w)
    else
      let input : UpdateItemInput :=
        { ExpressionAttributeValues := [(":n", .S updatedTodo.Task)],
          ExpressionAttributeNames := [("#N", "task")],
          TableName := env.DYNAMODB_TABLE,
          Key := [("id", .S (pathParam request.PathParameters "id"))],
          ReturnValues := "UPDATED_NEW",
          UpdateExpression := "set #N = :n" }
      match UpdateItem env input w with
      | (.error err, w1) => ({ StatusCode := 500, Body := "Update failed: " ++ err }, none, w1)
      | (.ok _, w1) => ({ StatusCode := 200, Body := "Todo updated successfully!" }, none, w1)

/-- Embedding of `DeleteHandler` (main.go:160-182). -/
def DeleteHandler (env : Env) (request : APIGatewayProxyRequest) (w : World) : Result :=
  let input : DeleteItemInput :=
    { Key := [("id", .S (pathParam request.PathParameters "id"))],
      TableName := env.DYNAMODB_TABLE }
  match DeleteItem env input w with
  | (.error err, w1) => ({ StatusCode := 500, Body := "" }, some err, w1)
  | (.ok _, w1) => ({ StatusCode := 200, Body := "Todo deleted successfully!" }, none, w1)

/-- Embedding of `handler` (main.go:21-34): the switch on `request.HTTPMethod`. -/
def handler (env : Env) (request : APIGatewayProxyRequest) (w : World) : Result :=
  match request.HTTPMethod with
  | "POST" => CreateHandler env request w
  | "GET" => ReadHandler env request w
  | "PUT" => UpdateHandler env request w
  | "DELETE" => DeleteHandler env request w
  | _ => ({ StatusCode := 405, Body := "Method Not Allowed" }, none, w)

/-- The update the claim describes: keyed by the path id alone, a single `set` of
the attribute `task` to the given text. -/
def taskUpdate (env : Env) (id task : String) : UpdateItemInput :=
  { ExpressionAttributeValues := [(":n", .S task)],
    ExpressionAttributeNames := [("#N", "task")],
    TableName := env.DYNAMODB_TABLE,
    Key := [("id", .S id)],
    ReturnValues := "UPDATED_NEW",
    UpdateExpression := "set #N = :n" }

/-! ## A reference environment

An in-memory instance of `Env`, used to run the handlers on concrete requests:
a codec for the canonical text of a `Todo` object, the attribute decoder for
items written by `MarshalMap`, a counter-based identifier source and a store
that never faults. -/

/-- The double quote. -/
def quoteChar : Char := Char.ofNat 34

/-- The backslash. -/
def backslashChar : Char := Char.ofNat 92

/-- The text of a JSON string: quote and backslash are written after a backslash. -/
def escapeChars : List Char → List Char
  | [] => []
  | c :: cs =>
    if c = quoteChar ∨ c = backslashChar then backslashChar :: c :: escapeChars cs
    else c :: escapeChars cs

/-- Reads the text of a JSON string up to its closing quote: the string read and the rest. -/
def readString : List Char → Option (List Char × List Char)
  | [] => none
  | c :: cs =>
    if c = quoteChar then some ([], cs)
    else if c = backslashChar then
      match cs with
      | [] => none
      | d :: ds => (readString ds).map (fun r => (d :: r.1, r.2))
    else (readString cs).map (fun r => (c :: r.1, r.2))

/-- The rest of a text after a given beginning, if it begins so. -/
def stripStart : List Char → List Char → Option (List Char)
  | [], s => some s
  | _ :: _, [] => none
  | p :: ps, c :: cs => if p = c then stripStart ps cs else none

/-- The text before the id of an encoded `Todo`. -/
def idOpen : List Char := "\x7b\"id\":\"".toList

/-- The text between the id and the task of an encoded `Todo`. -/
def taskSep : List Char := ",\"task\":\"".toList

/-- The text before the task of an object that has no id. -/
def taskOpen : List Char := "\x7b\"task\":\"".toList

/-- The closing brace. -/
def objClose : List Char := "\x7d".toList

/-- Reference encoder: the object with its two fields in declaration order. -/
def refEncode (t : Todo) : String :=
  String.mk (idOpen ++ (escapeChars t.ID.toList ++
    quoteChar :: (taskSep ++ (escapeChars t.Task.toList ++ quoteChar :: objClose))))

/-- Reads an object with an id and a task. -/
def readWithId (cs : List Char) : Option Todo := do
  let r1 ← stripStart idOpen cs
  let (id, r2) ← readString r1
  let r3 ← stripStart taskSep r2
  let (task, r4) ← readString r3
  if r4 = objClose then some { ID := String.mk id, Task := String.mk task } else none

/-- Reads an object with a task only; the id keeps its zero value. -/
def readTaskOnly (cs : List Char) : Option Todo := do
  let r1 ← stripStart taskOpen cs
  let (task, r2) ← readString r1
  if r2 = objClose then some { ID := "", Task := String.mk task } else none

/-- Reference decoder: accepts the two canonical object forms. -/
def refUnmarshal (body : String) : Except String Todo :=
  match readWithId body.toList with
  | some t => .ok t
  | none =>
    match readTaskOnly body.toList with
    | some t => .ok t
    | none =>
      if body = "" then .error "unexpected end of JSON input"
      else .error "invalid character in JSON input"

/-- Decoding one attribute into a string field: an absent or `NULL` attribute
leaves the zero value, an `S` value is stored, anything else is a type error. -/
def refDecodeString : Option AttributeValue → Option String
  | none => some ""
  | some (.S s) => some s
  | some (.NULL _) => some ""
  | some _ => none

/-- Reference attribute decoder for `Todo`. -/
def refUnmarshalMap (it : Item) : Except String Todo :=
  match refDecodeString (it.lookup "id"), refDecodeString (it.lookup "task") with
  | some id, some task => .ok { ID := id, Task := task }
  | _, _ => .error "UnmarshalTypeError"

/-- Reference identifier source: the `n`-th identifier is `n + 1` letters long. -/
def refUuid (n : Nat) : String := String.mk (List.replicate (n + 1) (Char.ofNat 117))

/-- The reference environment. -/
def refEnv : Env :=
  { AWS_REGION := "eu-west-1",
    DYNAMODB_TABLE := "todos",
    jsonUnmarshal := refUnmarshal,
    jsonEncode := refEncode,
    UnmarshalMap := refUnmarshalMap,
    uuidString := refUuid,
    storeFault := fun _ _ => none }

/-- The empty table, before any call. -/
def emptyWorld : World := { table := [], calls := [], minted := 0 }

/-! ## Requests used to run the handlers -/

/-- A create request whose body carries an id of its own. -/
def createRequest : APIGatewayProxyRequest :=
  { HTTPMethod := "POST", PathParameters := [],
    Body := "\x7b\"id\":\"mine\",\"task\":\"buy milk\"\x7d" }

/-- A read request for the first identifier of the reference source. -/
def readRequest : APIGatewayProxyRequest :=
  { HTTPMethod := "GET", PathParameters := [("id", "u")], Body := "" }

/-- An update request with an empty task for an id that is stored. -/
def emptyTaskRequest : APIGatewayProxyRequest :=
  { HTTPMethod := "PUT", PathParameters := [("id", "u")], Body := "\x7b\"task\":\"\"\x7d" }

/-- An update request whose body is not JSON. -/
def malformedUpdate : APIGatewayProxyRequest :=
  { HTTPMethod := "PUT", PathParameters := [("id", "u")], Body := "task=buy milk" }

/-- A create request with an empty body. -/
def malformedCreate : APIGatewayProxyRequest :=
  { HTTPMethod := "POST", PathParameters := [], Body := "" }

/-- An update request for a stored id whose body names another id. -/
def updateRequest : APIGatewayProxyRequest :=
  { HTTPMethod := "PUT", PathParameters := [("id", "u")],
    Body := "\x7b\"id\":\"other\",\"task\":\"buy bread\"\x7d" }

/-- A request with a verb the dispatcher does not know. -/
def patchRequest : APIGatewayProxyRequest :=
  { HTTPMethod := "PATCH", PathParameters := [], Body := "" }

/-- A delete request for the first identifier of the reference source. -/
def deleteRequest : APIGatewayProxyRequest :=
  { HTTPMethod := "DELETE", PathParameters := [("id", "u")], Body := "" }

/-! ## Lemmas on the table -/

theorem findItem_cons_self (it : Item) (t : List Item) (k : String) (h : keyOf it = some k) :
    findItem (it :: t) k = some it := by
  simp [findItem, h]

theorem findItem_removeKey_ne (t : List Item) (k k2 : String) (h : k2 ≠ k) :
    findItem (removeKey t k) k2 = findItem t k2 := by
  unfold findItem removeKey
  rw [List.find?_filter]
  congr 1
  funext it
  by_cases hk2 : keyOf it = some k2
  · have hk : keyOf it ≠ some k := by
      rw [hk2]; intro hc; exact h (Option.some.inj hc)
    simp [hk2, h]
  · simp [hk2]

theorem findItem_removeKey_self (t : List Item) (k : String) :
    findItem (removeKey t k) k = none := by
  simp [findItem, removeKey, List.find?_eq_none]

theorem findItem_cons_removeKey_ne (it : Item) (t : List Item) (k k2 : String)
    (hk : keyOf it = some k) (h : k2 ≠ k) :
    findItem (it :: removeKey t k) k2 = findItem t k2 := by
  have hk2 : keyOf it ≠ some k2 := by
    rw [hk]; intro hc; exact h (Option.some.inj hc).symm
  have := findItem_removeKey_ne t k k2 h
  unfold findItem at *
  simp [List.find?_cons, hk2, this]

theorem removeKey_removeKey (t : List Item) (k : String) :
    removeKey (removeKey t k) k = removeKey t k := by
  simp [removeKey, List.filter_filter]

theorem keyOf_MarshalMap_item (id task : String) (k : String)
    (h : keyOf [("id", encodeString id), ("task", encodeString task)] = some k) : k = id := by
  unfold keyOf encodeString at h
  by_cases hid : id = ""
  · simp [List.lookup, hid] at h
  · simp [List.lookup, hid] at h
    exact h.symm

theorem lookup_filter_ne {β : Type} (l : List (String × β)) (a name : String) (h : a ≠ name) :
    (l.filter (fun p => decide (p.1 ≠ name))).lookup a = l.lookup a := by
  induction l with
  | nil => rfl
  | cons p l ih =>
    obtain ⟨n, v⟩ := p
    by_cases hn : n = name
    · have han : (a == n) = false := by simp [hn, h]
      rw [List.filter_cons_of_neg (p := fun p : String × β => decide (p.1 ≠ name)) (by simp [hn]),
        ih, List.lookup_cons, han]
    · rw [List.filter_cons_of_pos (p := fun p : String × β => decide (p.1 ≠ name)) (by simp [hn]),
        List.lookup_cons, List.lookup_cons, ih]

theorem lookup_setAttr_ne (it : Item) (a name : String) (v : AttributeValue) (h : a ≠ name) :
    (setAttr it name v).lookup a = it.lookup a := by
  have hb : (a == name) = false := by simp [h]
  simp only [setAttr, List.lookup, hb]
  exact lookup_filter_ne it a name h

theorem lookup_setAttr_self (it : Item) (name : String) (v : AttributeValue) :
    (setAttr it name v).lookup name = some v := by
  simp [setAttr, List.lookup]

theorem keyOf_setAttr (it : Item) (name : String) (v : AttributeValue) (h : name ≠ "id") :
    keyOf (setAttr it name v) = keyOf it := by
  unfold keyOf
  rw [lookup_setAttr_ne it "id" name v (Ne.symm h)]

theorem keyOf_of_findItem (t : List Item) (k : String) (it : Item)
    (h : findItem t k = some it) : keyOf it = some k := by
  have := List.find?_some h
  simpa using this

theorem keyOf_idKey (id : String) (h : id ≠ "") :
    keyOf [("id", AttributeValue.S id)] = some id := by
  simp [keyOf, List.lookup, h]

theorem keyOfKey_idKey (id : String) (h : id ≠ "") :
    keyOfKey [("id", AttributeValue.S id)] = some id := by
  simp [keyOfKey, h]

theorem keyOfKey_idKey_empty : keyOfKey [("id", AttributeValue.S "")] = none := by
  simp [keyOfKey]

/-! ## Lemmas on the reference environment -/

theorem readString_escapeChars (s rest : List Char) :
    readString (escapeChars s ++ quoteChar :: rest) = some (s, rest) := by
  induction s with
  | nil =>
    simp only [escapeChars, List.nil_append]
    rw [readString.eq_def]
    simp
  | cons c cs ih =>
    have hqb : backslashChar ≠ quoteChar := by decide
    by_cases hq : c = quoteChar
    · subst hq
      simp only [escapeChars, true_or, if_true, List.cons_append]
      rw [readString.eq_def]
      simp [hqb, ih]
    · by_cases hb : c = backslashChar
      · subst hb
        simp only [escapeChars, or_true, if_true, List.cons_append]
        rw [readString.eq_def]
        simp [hqb, ih]
      · have hn : ¬ (c = quoteChar ∨ c = backslashChar) := by simp [hq, hb]
        simp only [escapeChars, hn, if_false, List.cons_append]
        rw [readString.eq_def]
        simp [hq, hb, ih]

theorem stripStart_append (p s : List Char) : stripStart p (p ++ s) = some s := by
  induction p with
  | nil => cases s <;> rfl
  | cons c cs ih => simp [stripStart, ih]

theorem refUnmarshal_refEncode (t : Todo) : refUnmarshal (refEncode t) = .ok t := by
  have h : readWithId (refEncode t).toList = some t := by
    simp only [refEncode, readWithId, String.toList]
    simp [stripStart_append, readString_escapeChars]
  simp only [refUnmarshal, h]

theorem refUnmarshalMap_MarshalMap (t : Todo) (av : Item) (h : MarshalMap t = .ok av) :
    refUnmarshalMap av = .ok t := by
  simp only [MarshalMap, Except.ok.injEq] at h
  subst h
  obtain ⟨id, task⟩ := t
  by_cases hid : id = "" <;> by_cases ht : task = "" <;>
    simp [refUnmarshalMap, refDecodeString, encodeString, List.lookup, hid, ht]

/-! ## Lemmas on the handlers -/

/-- What a successful `CreateHandler` run tells: the body is the encoding of the
record with the minted id, that id is not empty, and the record's item is the
one stored under it. -/
theorem CreateHandler_ok_inv (env : Env) (request : APIGatewayProxyRequest) (w w1 : World)
    (parsed : Todo) (body : String)
    (hparse : env.jsonUnmarshal request.Body = .ok parsed)
    (hcreate : CreateHandler env request w = ({ StatusCode := 200, Body := body }, none, w1)) :
    body = env.jsonEncode { ID := env.uuidString w.minted, Task := parsed.Task }
      ∧ env.uuidString w.minted ≠ ""
      ∧ findItem w1.table (env.uuidString w.minted)
          = some [("id", encodeString (env.uuidString w.minted)),
                  ("task", encodeString parsed.Task)] := by
  simp only [CreateHandler, hparse, MarshalMap, jsonMarshal, PutItem, uuidNew] at hcreate
  cases hf : env.storeFault w.calls (StoreCall.PutItem
      { Item := [("id", encodeString (env.uuidString w.minted)),
                 ("task", encodeString parsed.Task)],
        TableName := env.DYNAMODB_TABLE }) with
  | some e => simp [hf] at hcreate
  | none =>
    cases hk : keyOf [("id", encodeString (env.uuidString w.minted)),
                      ("task", encodeString parsed.Task)] with
    | none => simp [hf, hk] at hcreate
    | some k =>
      have hku := keyOf_MarshalMap_item _ _ k hk
      subst hku
      simp only [hf, hk, logCall, Prod.mk.injEq, APIGatewayProxyResponse.mk.injEq,
        true_and] at hcreate
      obtain ⟨hb, hw⟩ := hcreate
      refine ⟨hb.symm, ?_, ?_⟩
      · intro hempty
        simp [keyOf, encodeString, List.lookup, hempty] at hk
      · rw [← hw]
        exact findItem_cons_self _ _ _ hk

/-! ## The claims -/

/-- C1: a request whose method is none of `POST`, `GET`, `PUT`, `DELETE` is answered
with status 405 and body "Method Not Allowed", with a nil error, and the world
(table, store calls issued, identifiers minted) is left as it was. -/
theorem handler_method_not_allowed (env : Env) (request : APIGatewayProxyRequest) (w : World)
    (h1 : request.HTTPMethod ≠ "POST") (h2 : request.HTTPMethod ≠ "GET")
    (h3 : request.HTTPMethod ≠ "PUT") (h4 : request.HTTPMethod ≠ "DELETE") :
    handler env request w = ({ StatusCode := 405, Body := "Method Not Allowed" }, none, w) := by
  unfold handler
  split <;> simp_all

theorem handler_method_not_allowed_witness :
    handler refEnv patchRequest emptyWorld
      = ({ StatusCode := 405, Body := "Method Not Allowed" }, none, emptyWorld) :=
  handler_method_not_allowed refEnv patchRequest emptyWorld
    (by decide) (by decide) (by decide) (by decide)

/-- C2: when the body parses, the mapping of the record with the minted id succeeds
and the put succeeds, `CreateHandler` answers 200 with a nil error and the JSON
text of the record made of the minted id and the parsed task; the one store call
issued is the put of that record, which is then the item stored under the minted
id; and a request whose parsed body differs only in its id has the same outcome. -/
theorem CreateHandler_success (env : Env) (request : APIGatewayProxyRequest) (w : World)
    (parsed : Todo) (av : Item)
    (hparse : env.jsonUnmarshal request.Body = .ok parsed)
    (hmap : MarshalMap { ID := env.uuidString w.minted, Task := parsed.Task } = .ok av)
    (hput : (PutItem env { Item := av, TableName := env.DYNAMODB_TABLE } (uuidNew env w).2).1
              = .ok ()) :
    (CreateHandler env request w).1
        = { StatusCode := 200,
            Body := env.jsonEncode { ID := env.uuidString w.minted, Task := parsed.Task } }
      ∧ (CreateHandler env request w).2.1 = none
      ∧ (CreateHandler env request w).2.2.calls
          = w.calls ++ [StoreCall.PutItem { Item := av, TableName := env.DYNAMODB_TABLE }]
      ∧ findItem (CreateHandler env request w).2.2.table (env.uuidString w.minted) = some av
      ∧ (CreateHandler env request w).2.2.minted = w.minted + 1
      ∧ (∀ (request2 : APIGatewayProxyRequest) (parsed2 : Todo),
          env.jsonUnmarshal request2.Body = .ok parsed2 → parsed2.Task = parsed.Task →
          CreateHandler env request2 w = CreateHandler env request w) := by
  have hav : av = [("id", encodeString (env.uuidString w.minted)),
                   ("task", encodeString parsed.Task)] := by
    simp only [MarshalMap, Except.ok.injEq] at hmap
    exact hmap.symm
  have hind : ∀ (request2 : APIGatewayProxyRequest) (parsed2 : Todo),
      env.jsonUnmarshal request2.Body = .ok parsed2 → parsed2.Task = parsed.Task →
      CreateHandler env request2 w = CreateHandler env request w := by
    intro request2 parsed2 hp2 ht
    simp only [CreateHandler, hp2, hparse, ht]
  have hf : env.storeFault w.calls
      (StoreCall.PutItem { Item := av, TableName := env.DYNAMODB_TABLE }) = none := by
    cases h : env.storeFault w.calls
        (StoreCall.PutItem { Item := av, TableName := env.DYNAMODB_TABLE }) with
    | none => rfl
    | some e => simp [PutItem, uuidNew, h] at hput
  have hk : keyOf av = some (env.uuidString w.minted) := by
    cases h : keyOf av with
    | none => simp [PutItem, uuidNew, hf, h] at hput
    | some k => rw [keyOf_MarshalMap_item _ _ k (hav ▸ h)]
  have hrun : CreateHandler env request w
      = ({ StatusCode := 200,
           Body := env.jsonEncode { ID := env.uuidString w.minted, Task := parsed.Task } },
         none,
         { table := av :: removeKey w.table (env.uuidString w.minted),
           calls := w.calls ++ [StoreCall.PutItem { Item := av, TableName := env.DYNAMODB_TABLE }],
           minted := w.minted + 1 }) := by
    simp only [CreateHandler, hparse, hmap, jsonMarshal, PutItem, uuidNew, hf, hk, logCall]
  refine ⟨?_, ?_, ?_, ?_, ?_, hind⟩
  · rw [hrun]
  · rw [hrun]
  · rw [hrun]
  · rw [hrun]; exact findItem_cons_self _ _ _ hk
  · rw [hrun]

theorem CreateHandler_success_witness :
    (CreateHandler refEnv createRequest emptyWorld).1
      = { StatusCode := 200, Body := "\x7b\"id\":\"u\",\"task\":\"buy milk\"\x7d" } :=
  (CreateHandler_success refEnv createRequest emptyWorld
    { ID := "mine", Task := "buy milk" } [("id", .S "u"), ("task", .S "buy milk")]
    (by rfl) (by rfl) (by rfl)).1

/-- C3: round trip.  With a JSON codec that decodes what it encodes and an attribute
decoder that inverts `MarshalMap`: if `CreateHandler` succeeds on a payload that
parses, and `ReadHandler` is then called with the id decoded from the create
response, on a table that holds under that id what the create left there, the
lookup succeeding, then `ReadHandler` answers 200 with a nil error and a body that
decodes to the record with that id and the task that was created. -/
theorem create_then_read_round_trip (env : Env)
    (hjson : ∀ t : Todo, env.jsonUnmarshal (env.jsonEncode t) = .ok t)
    (hmapping : ∀ (t : Todo) (av : Item), MarshalMap t = .ok av → env.UnmarshalMap av = .ok t)
    (request : APIGatewayProxyRequest) (w w1 : World) (parsed : Todo) (body : String)
    (hparse : env.jsonUnmarshal request.Body = .ok parsed)
    (hcreate : CreateHandler env request w = ({ StatusCode := 200, Body := body }, none, w1))
    (created : Todo) (hbody : env.jsonUnmarshal body = .ok created)
    (read : APIGatewayProxyRequest)
    (hid : pathParam read.PathParameters "id" = created.ID)
    (w2 : World) (hsame : findItem w2.table created.ID = findItem w1.table created.ID)
    (r : Option Item)
    (hget : (GetItem env { Key := [("id", .S created.ID)], TableName := env.DYNAMODB_TABLE }
              w2).1 = .ok r) :
    ∃ body2 : String,
      (ReadHandler env read w2).1 = { StatusCode := 200, Body := body2 }
        ∧ (ReadHandler env read w2).2.1 = none
        ∧ env.jsonUnmarshal body2 = .ok { ID := created.ID, Task := parsed.Task } := by
  obtain ⟨hb, hne, hfind⟩ := CreateHandler_ok_inv env request w w1 parsed body hparse hcreate
  have hcr : created = { ID := env.uuidString w.minted, Task := parsed.Task } := by
    rw [hb, hjson] at hbody
    exact (Except.ok.inj hbody).symm
  subst hcr
  simp only at hid hsame hget hfind ⊢
  have hf : env.storeFault w2.calls (StoreCall.GetItem
      { Key := [("id", .S (env.uuidString w.minted))], TableName := env.DYNAMODB_TABLE })
      = none := by
    cases h : env.storeFault w2.calls (StoreCall.GetItem
        { Key := [("id", .S (env.uuidString w.minted))], TableName := env.DYNAMODB_TABLE }) with
    | none => rfl
    | some e => simp [GetItem, h] at hget
  have hunm := hmapping { ID := env.uuidString w.minted, Task := parsed.Task } _ rfl
  refine ⟨env.jsonEncode { ID := env.uuidString w.minted, Task := parsed.Task }, ?_, ?_, hjson _⟩ <;>
    simp only [ReadHandler, hid, GetItem, hf, keyOfKey_idKey _ hne, hsame, hfind, hunm, jsonMarshal]

theorem create_then_read_round_trip_witness :
    ∃ body2 : String,
      (ReadHandler refEnv readRequest (CreateHandler refEnv createRequest emptyWorld).2.2).1
          = { StatusCode := 200, Body := body2 }
        ∧ (ReadHandler refEnv readRequest (CreateHandler refEnv createRequest emptyWorld).2.2).2.1
          = none
        ∧ refEnv.jsonUnmarshal body2 = .ok { ID := "u", Task := "buy milk" } :=
  create_then_read_round_trip refEnv refUnmarshal_refEncode refUnmarshalMap_MarshalMap
    createRequest emptyWorld (CreateHandler refEnv createRequest emptyWorld).2.2
    { ID := "mine", Task := "buy milk" } "\x7b\"id\":\"u\",\"task\":\"buy milk\"\x7d"
    (by rfl) (by rfl) { ID := "u", Task := "buy milk" } (by rfl) readRequest (by rfl)
    (CreateHandler refEnv createRequest emptyWorld).2.2 rfl
    (some [("id", .S "u"), ("task", .S "buy milk")]) (by rfl)

/-- C4: when the lookup for the path parameter id succeeds and returns no item, which
is what a successful lookup does for every id with no record in the table,
`ReadHandler` answers exactly 404 with body "Todo not found" and a nil error; the
lookup is the one store call issued and the table is as before. -/
theorem ReadHandler_not_found (env : Env) (request : APIGatewayProxyRequest) (w : World)
    (r : Option Item)
    (hget : (GetItem env { Key := [("id", .S (pathParam request.PathParameters "id"))],
                           TableName := env.DYNAMODB_TABLE } w).1 = .ok r)
    (hnone : r = none ∨ findItem w.table (pathParam request.PathParameters "id") = none) :
    ReadHandler env request w
      = ({ StatusCode := 404, Body := "Todo not found" }, none,
         logCall w (StoreCall.GetItem
           { Key := [("id", .S (pathParam request.PathParameters "id"))],
             TableName := env.DYNAMODB_TABLE })) := by
  unfold GetItem at hget
  cases hf : env.storeFault w.calls (StoreCall.GetItem
      { Key := [("id", .S (pathParam request.PathParameters "id"))],
        TableName := env.DYNAMODB_TABLE }) with
  | some e => simp [hf] at hget
  | none =>
    cases hk : keyOfKey [("id", AttributeValue.S (pathParam request.PathParameters "id"))] with
    | none => simp [hf, hk] at hget
    | some k =>
      have hkid : k = pathParam request.PathParameters "id" := by
        simp only [keyOfKey] at hk
        split at hk
        · exact (Option.some.inj hk).symm
        · exact absurd hk (by simp)
      subst hkid
      simp only [hf, hk, Except.ok.injEq] at hget
      have hfind : findItem w.table (pathParam request.PathParameters "id") = none := by
        rcases hnone with h | h
        · rw [hget, h]
        · exact h
      simp only [ReadHandler, GetItem, hf, hk, hfind]

theorem ReadHandler_not_found_witness :
    ReadHandler refEnv readRequest emptyWorld
      = ({ StatusCode := 404, Body := "Todo not found" }, none,
         logCall emptyWorld (StoreCall.GetItem
           { Key := [("id", .S "u")], TableName := "todos" })) :=
  ReadHandler_not_found refEnv readRequest emptyWorld none (by rfl) (Or.inl rfl)

/-- C5: when the body parses to a record whose task is empty, `UpdateHandler` answers
400 with body "Task cannot be empty" and a nil error, whatever the path id and
whatever the table holds, and the world is left as it was: no store call is issued. -/
theorem UpdateHandler_empty_task (env : Env) (request : APIGatewayProxyRequest) (w : World)
    (updatedTodo : Todo)
    (hparse : env.jsonUnmarshal request.Body = .ok updatedTodo)
    (htask : updatedTodo.Task = "") :
    UpdateHandler env request w
      = ({ StatusCode := 400, Body := "Task cannot be empty" }, none, w) := by
  simp only [UpdateHandler, hparse, htask, if_true]

theorem UpdateHandler_empty_task_witness :
    UpdateHandler refEnv emptyTaskRequest (CreateHandler refEnv createRequest emptyWorld).2.2
      = ({ StatusCode := 400, Body := "Task cannot be empty" }, none,
         (CreateHandler refEnv createRequest emptyWorld).2.2) :=
  UpdateHandler_empty_task refEnv emptyTaskRequest
    (CreateHandler refEnv createRequest emptyWorld).2.2 { ID := "", Task := "" } (by rfl) rfl

/-- C6: when the body fails to parse, `UpdateHandler` answers 400 with body
"Invalid input: " followed by the text of the parse failure, returns a nil error,
and leaves the world as it was: the store is not called. -/
theorem UpdateHandler_parse_failure (env : Env) (request : APIGatewayProxyRequest) (w : World)
    (err : String) (hparse : env.jsonUnmarshal request.Body = .error err) :
    UpdateHandler env request w
      = ({ StatusCode := 400, Body := "Invalid input: " ++ err }, none, w) := by
  simp only [UpdateHandler, hparse]

theorem UpdateHandler_parse_failure_witness :
    UpdateHandler refEnv malformedUpdate emptyWorld
      = ({ StatusCode := 400, Body := "Invalid input: invalid character in JSON input" },
         none, emptyWorld) :=
  UpdateHandler_parse_failure refEnv malformedUpdate emptyWorld
    "invalid character in JSON input" (by rfl)

/-- C7: when the body fails to parse, `CreateHandler` answers 400 with body
"Invalid input" and returns the parse failure as its error; the world is left as
it was: no id is minted and nothing is put. -/
theorem CreateHandler_parse_failure (env : Env) (request : APIGatewayProxyRequest) (w : World)
    (err : String) (hparse : env.jsonUnmarshal request.Body = .error err) :
    CreateHandler env request w
      = ({ StatusCode := 400, Body := "Invalid input" }, some err, w) := by
  simp only [CreateHandler, hparse]

theorem CreateHandler_parse_failure_witness :
    CreateHandler refEnv malformedCreate emptyWorld
      = ({ StatusCode := 400, Body := "Invalid input" },
         some "unexpected end of JSON input", emptyWorld) :=
  CreateHandler_parse_failure refEnv malformedCreate emptyWorld
    "unexpected end of JSON input" (by rfl)

/-- C8, as stated, fails: a `POST` with an empty body is a malformed payload on
Create, and `handler` answers it with status 400 and body "Invalid input" but
returns the parse failure as a non-nil error. -/
theorem handler_create_malformed_returns_error :
    refEnv.jsonUnmarshal malformedCreate.Body = .error "unexpected end of JSON input"
      ∧ (handler refEnv malformedCreate emptyWorld).1
          = { StatusCode := 400, Body := "Invalid input" }
      ∧ (handler refEnv malformedCreate emptyWorld).2.1 = some "unexpected end of JSON input"
      ∧ (handler refEnv malformedCreate emptyWorld).2.1 ≠ none := by
  refine ⟨rfl, rfl, rfl, ?_⟩
  decide

/-- C8, amended: every client input error is answered with a status in 400-499 and a
non-empty text body, and the world is left as it was.  The error returned by
`handler` is nil for a malformed payload on Update, for an empty task on Update
and for an unknown verb; for a malformed payload on Create the status is 400,
the body "Invalid input", and the error returned is the parse failure. -/
theorem handler_client_errors (env : Env) (request : APIGatewayProxyRequest) (w : World) :
    (∀ err : String, request.HTTPMethod = "POST" →
        env.jsonUnmarshal request.Body = .error err →
        handler env request w = ({ StatusCode := 400, Body := "Invalid input" }, some err, w))
      ∧ (∀ err : String, request.HTTPMethod = "PUT" →
          env.jsonUnmarshal request.Body = .error err →
          handler env request w
              = ({ StatusCode := 400, Body := "Invalid input: " ++ err }, none, w)
            ∧ "Invalid input: " ++ err ≠ "")
      ∧ (∀ updatedTodo : Todo, request.HTTPMethod = "PUT" →
          env.jsonUnmarshal request.Body = .ok updatedTodo → updatedTodo.Task = "" →
          handler env request w
            = ({ StatusCode := 400, Body := "Task cannot be empty" }, none, w))
      ∧ (request.HTTPMethod ≠ "POST" → request.HTTPMethod ≠ "GET" →
          request.HTTPMethod ≠ "PUT" → request.HTTPMethod ≠ "DELETE" →
          handler env request w
            = ({ StatusCode := 405, Body := "Method Not Allowed" }, none, w))
      ∧ ((request.HTTPMethod = "POST" ∧ (∃ err, env.jsonUnmarshal request.Body = .error err))
          ∨ (request.HTTPMethod = "PUT" ∧ (∃ err, env.jsonUnmarshal request.Body = .error err))
          ∨ (request.HTTPMethod = "PUT"
              ∧ ∃ t : Todo, env.jsonUnmarshal request.Body = .ok t ∧ t.Task = "")
          ∨ (request.HTTPMethod ≠ "POST" ∧ request.HTTPMethod ≠ "GET"
              ∧ request.HTTPMethod ≠ "PUT" ∧ request.HTTPMethod ≠ "DELETE") →
          400 ≤ (handler env request w).1.StatusCode
            ∧ (handler env request w).1.StatusCode ≤ 499
            ∧ (handler env request w).1.Body ≠ ""
            ∧ (handler env request w).2.2 = w
            ∧ (request.HTTPMethod ≠ "POST" → (handler env request w).2.1 = none)) := by
  have hne : ∀ err : String, "Invalid input: " ++ err ≠ "" := by
    intro err h
    have hlen := congrArg String.length h
    rw [String.length_append] at hlen
    have h15 : "Invalid input: ".length = 15 := by decide
    have h0 : "".length = 0 := by decide
    omega
  have hpost : ∀ err : String, request.HTTPMethod = "POST" →
      env.jsonUnmarshal request.Body = .error err →
      handler env request w
        = ({ StatusCode := 400, Body := "Invalid input" }, some err, w) := by
    intro err hm hp
    simp only [handler, hm, CreateHandler, hp]
  have hputErr : ∀ err : String, request.HTTPMethod = "PUT" →
      env.jsonUnmarshal request.Body = .error err →
      handler env request w
        = ({ StatusCode := 400, Body := "Invalid input: " ++ err }, none, w) := by
    intro err hm hp
    simp only [handler, hm, UpdateHandler, hp]
  have hputEmpty : ∀ updatedTodo : Todo, request.HTTPMethod = "PUT" →
      env.jsonUnmarshal request.Body = .ok updatedTodo → updatedTodo.Task = "" →
      handler env request w
        = ({ StatusCode := 400, Body := "Task cannot be empty" }, none, w) := by
    intro t hm hp ht
    simp only [handler, hm, UpdateHandler, hp, ht, if_true]
  have hother : request.HTTPMethod ≠ "POST" → request.HTTPMethod ≠ "GET" →
      request.HTTPMethod ≠ "PUT" → request.HTTPMethod ≠ "DELETE" →
      handler env request w
        = ({ StatusCode := 405, Body := "Method Not Allowed" }, none, w) := by
    intro h1 h2 h3 h4
    unfold handler
    split <;> simp_all
  refine ⟨hpost, fun err hm hp => ⟨hputErr err hm hp, hne err⟩, hputEmpty, hother, ?_⟩
  rintro (⟨hm, err, hp⟩ | ⟨hm, err, hp⟩ | ⟨hm, t, hp, ht⟩ | ⟨h1, h2, h3, h4⟩)
  · rw [hpost err hm hp]
    refine ⟨?_, ?_, ?_, rfl, fun h => absurd hm h⟩
    · show (400 : Int) ≤ 400
      decide
    · show (400 : Int) ≤ 499
      decide
    · show "Invalid input" ≠ ""
      decide
  · rw [hputErr err hm hp]
    refine ⟨?_, ?_, hne err, rfl, fun _ => rfl⟩
    · show (400 : Int) ≤ 400
      decide
    · show (400 : Int) ≤ 499
      decide
  · rw [hputEmpty t hm hp ht]
    refine ⟨?_, ?_, ?_, rfl, fun _ => rfl⟩
    · show (400 : Int) ≤ 400
      decide
    · show (400 : Int) ≤ 499
      decide
    · show "Task cannot be empty" ≠ ""
      decide
  · rw [hother h1 h2 h3 h4]
    refine ⟨?_, ?_, ?_, rfl, fun _ => rfl⟩
    · show (400 : Int) ≤ 405
      decide
    · show (405 : Int) ≤ 499
      decide
    · show "Method Not Allowed" ≠ ""
      decide

theorem handler_client_errors_witness :
    handler refEnv malformedCreate emptyWorld
        = ({ StatusCode := 400, Body := "Invalid input" },
           some "unexpected end of JSON input", emptyWorld)
      ∧ handler refEnv malformedUpdate emptyWorld
        = ({ StatusCode := 400, Body := "Invalid input: invalid character in JSON input" },
           none, emptyWorld)
      ∧ handler refEnv emptyTaskRequest emptyWorld
        = ({ StatusCode := 400, Body := "Task cannot be empty" }, none, emptyWorld)
      ∧ handler refEnv patchRequest emptyWorld
        = ({ StatusCode := 405, Body := "Method Not Allowed" }, none, emptyWorld)
      ∧ (handler refEnv malformedUpdate emptyWorld).1.Body ≠ "" :=
  ⟨(handler_client_errors refEnv malformedCreate emptyWorld).1
      "unexpected end of JSON input" rfl (by rfl),
   ((handler_client_errors refEnv malformedUpdate emptyWorld).2.1
      "invalid character in JSON input" rfl (by rfl)).1,
   (handler_client_errors refEnv emptyTaskRequest emptyWorld).2.2.1
      { ID := "", Task := "" } rfl (by rfl) rfl,
   (handler_client_errors refEnv patchRequest emptyWorld).2.2.2.1
      (by decide) (by decide) (by decide) (by decide),
   ((handler_client_errors refEnv malformedUpdate emptyWorld).2.2.2.2
      (Or.inr (Or.inl ⟨rfl, "invalid character in JSON input", by rfl⟩))).2.2.1⟩

/-- C9: when the body parses to a record with a non-empty task, `UpdateHandler`
issues exactly one store call, the update keyed by the path id that sets the
attribute `task` to the parsed task; the error is nil; a request with the same
path parameters whose parsed body differs only in its id has the same outcome;
the item stored under any other id is as before; and when the update succeeds
the response is 200 with body "Todo updated successfully!", the item under the
path id has `task` set to the parsed task and every other attribute as before. -/
theorem UpdateHandler_update (env : Env) (request : APIGatewayProxyRequest) (w : World)
    (updatedTodo : Todo)
    (hparse : env.jsonUnmarshal request.Body = .ok updatedTodo)
    (htask : updatedTodo.Task ≠ "") :
    (UpdateHandler env request w).2.2.calls
        = w.calls ++ [StoreCall.UpdateItem
            (taskUpdate env (pathParam request.PathParameters "id") updatedTodo.Task)]
      ∧ (UpdateHandler env request w).2.1 = none
      ∧ (∀ (request2 : APIGatewayProxyRequest) (todo2 : Todo),
          request2.PathParameters = request.PathParameters →
          env.jsonUnmarshal request2.Body = .ok todo2 → todo2.Task = updatedTodo.Task →
          UpdateHandler env request2 w = UpdateHandler env request w)
      ∧ (∀ k : String, k ≠ pathParam request.PathParameters "id" →
          findItem (UpdateHandler env request w).2.2.table k = findItem w.table k)
      ∧ ((UpdateItem env
            (taskUpdate env (pathParam request.PathParameters "id") updatedTodo.Task) w).1
            = .ok () →
          (UpdateHandler env request w).1
              = { StatusCode := 200, Body := "Todo updated successfully!" }
            ∧ (∃ item : Item,
                findItem (UpdateHandler env request w).2.2.table
                    (pathParam request.PathParameters "id") = some item
                  ∧ item.lookup "task" = some (.S updatedTodo.Task)
                  ∧ ∀ (old : Item) (a : String),
                      findItem w.table (pathParam request.PathParameters "id") = some old →
                      a ≠ "task" → item.lookup a = old.lookup a)) := by
  have hind : ∀ (request2 : APIGatewayProxyRequest) (todo2 : Todo),
      request2.PathParameters = request.PathParameters →
      env.jsonUnmarshal request2.Body = .ok todo2 → todo2.Task = updatedTodo.Task →
      UpdateHandler env request2 w = UpdateHandler env request w := by
    intro request2 todo2 hpp hp2 ht2
    have ht2ne : todo2.Task ≠ "" := by rw [ht2]; exact htask
    simp only [UpdateHandler, hp2, hparse, hpp, ht2, htask, if_false]
  have hrun : UpdateHandler env request w
      = match UpdateItem env
          (taskUpdate env (pathParam request.PathParameters "id") updatedTodo.Task) w with
        | (.error err, w1) => ({ StatusCode := 500, Body := "Update failed: " ++ err }, none, w1)
        | (.ok _, w1) => ({ StatusCode := 200, Body := "Todo updated successfully!" }, none, w1) := by
    simp only [UpdateHandler, hparse, htask, if_false, taskUpdate]
  have hact : updateAction
      (taskUpdate env (pathParam request.PathParameters "id") updatedTodo.Task)
      = some ("task", .S updatedTodo.Task) := by
    simp [updateAction, taskUpdate, List.lookup]
  have hnotid : ("task" : String) ≠ "id" := by decide
  cases hf : env.storeFault w.calls (StoreCall.UpdateItem
      (taskUpdate env (pathParam request.PathParameters "id") updatedTodo.Task)) with
  | some e =>
    have hcall : UpdateItem env
        (taskUpdate env (pathParam request.PathParameters "id") updatedTodo.Task) w
        = (.error e, logCall w (StoreCall.UpdateItem
            (taskUpdate env (pathParam request.PathParameters "id") updatedTodo.Task))) := by
      simp only [UpdateItem, hf]
    rw [hcall] at hrun
    rw [hrun]
    exact ⟨rfl, rfl, fun r2 t2 h1 h2 h3 => (hind r2 t2 h1 h2 h3).trans hrun,
      fun _ _ => rfl, fun h => by simp [hcall] at h⟩
  | none =>
    by_cases hid : pathParam request.PathParameters "id" = ""
    · have hk : keyOfKey
          (taskUpdate env (pathParam request.PathParameters "id") updatedTodo.Task).Key
          = none := by
        simp [taskUpdate, keyOfKey, hid]
      have hcall : UpdateItem env
          (taskUpdate env (pathParam request.PathParameters "id") updatedTodo.Task) w
          = (.error "ValidationException", logCall w (StoreCall.UpdateItem
              (taskUpdate env (pathParam request.PathParameters "id") updatedTodo.Task))) := by
        simp only [UpdateItem, hf, hk]
      rw [hcall] at hrun
      rw [hrun]
      exact ⟨rfl, rfl, fun r2 t2 h1 h2 h3 => (hind r2 t2 h1 h2 h3).trans hrun,
        fun _ _ => rfl, fun h => by simp [hcall] at h⟩
    · have hk : keyOfKey
          (taskUpdate env (pathParam request.PathParameters "id") updatedTodo.Task).Key
          = some (pathParam request.PathParameters "id") := keyOfKey_idKey _ hid
      have hold : keyOf ((findItem w.table (pathParam request.PathParameters "id")).getD
          (taskUpdate env (pathParam request.PathParameters "id") updatedTodo.Task).Key)
          = some (pathParam request.PathParameters "id") := by
        cases hfi : findItem w.table (pathParam request.PathParameters "id") with
        | none => exact keyOf_idKey _ hid
        | some old => exact keyOf_of_findItem _ _ _ hfi
      have hnew := (keyOf_setAttr _ "task" (.S updatedTodo.Task) hnotid).trans hold
      have hcall : UpdateItem env
          (taskUpdate env (pathParam request.PathParameters "id") updatedTodo.Task) w
          = (.ok (),
             { logCall w (StoreCall.UpdateItem
                 (taskUpdate env (pathParam request.PathParameters "id") updatedTodo.Task)) with
               table := setAttr
                 ((findItem w.table (pathParam request.PathParameters "id")).getD
                   (taskUpdate env (pathParam request.PathParameters "id") updatedTodo.Task).Key)
                 "task" (.S updatedTodo.Task)
                 :: removeKey w.table (pathParam request.PathParameters "id") }) := by
        simp only [UpdateItem, hf, hk, hact, hnotid, if_false]
      rw [hcall] at hrun
      rw [hrun]
      refine ⟨rfl, rfl, fun r2 t2 h1 h2 h3 => (hind r2 t2 h1 h2 h3).trans hrun, ?_,
        fun _ => ⟨rfl, _, findItem_cons_self _ _ _ hnew, lookup_setAttr_self _ _ _, ?_⟩⟩
      · intro k hkne
        exact findItem_cons_removeKey_ne _ _ _ k hnew hkne
      · intro old a hfi ha
        rw [lookup_setAttr_ne _ a "task" _ ha, hfi]
        rfl

theorem UpdateHandler_update_witness :
    (UpdateHandler refEnv updateRequest (CreateHandler refEnv createRequest emptyWorld).2.2).1
        = { StatusCode := 200, Body := "Todo updated successfully!" }
      ∧ (UpdateHandler refEnv updateRequest
          (CreateHandler refEnv createRequest emptyWorld).2.2).2.2.calls
        = (CreateHandler refEnv createRequest emptyWorld).2.2.calls
            ++ [StoreCall.UpdateItem (taskUpdate refEnv "u" "buy bread")] :=
  have h := UpdateHandler_update refEnv updateRequest
    (CreateHandler refEnv createRequest emptyWorld).2.2
    { ID := "other", Task := "buy bread" } (by rfl) (by decide)
  ⟨(h.2.2.2.2 (by rfl)).1, h.1⟩

/-- C10: for every id and every table, when the store's delete call does not fail,
`DeleteHandler` answers 200 with body "Todo deleted successfully!" and a nil
error, and no item is stored under the id afterwards; a second call for the same
id, its delete call not failing either, gives the same response and leaves the
table as the first call left it. -/
theorem DeleteHandler_idempotent (env : Env) (request request2 : APIGatewayProxyRequest)
    (w : World)
    (hid : pathParam request2.PathParameters "id" = pathParam request.PathParameters "id")
    (hdel : (DeleteItem env { Key := [("id", .S (pathParam request.PathParameters "id"))],
                              TableName := env.DYNAMODB_TABLE } w).1 = .ok ()) :
    (DeleteHandler env request w).1
        = { StatusCode := 200, Body := "Todo deleted successfully!" }
      ∧ (DeleteHandler env request w).2.1 = none
      ∧ findItem (DeleteHandler env request w).2.2.table
          (pathParam request.PathParameters "id") = none
      ∧ ((DeleteItem env { Key := [("id", .S (pathParam request.PathParameters "id"))],
                           TableName := env.DYNAMODB_TABLE }
            (DeleteHandler env request w).2.2).1 = .ok () →
          (DeleteHandler env request2 (DeleteHandler env request w).2.2).1
              = { StatusCode := 200, Body := "Todo deleted successfully!" }
            ∧ (DeleteHandler env request2 (DeleteHandler env request w).2.2).2.1 = none
            ∧ (DeleteHandler env request2 (DeleteHandler env request w).2.2).2.2.table
                = (DeleteHandler env request w).2.2.table) := by
  have hrun : ∀ w0 : World,
      (DeleteItem env { Key := [("id", .S (pathParam request.PathParameters "id"))],
                        TableName := env.DYNAMODB_TABLE } w0).1 = .ok () →
      ∀ rq : APIGatewayProxyRequest,
      pathParam rq.PathParameters "id" = pathParam request.PathParameters "id" →
      DeleteHandler env rq w0
        = ({ StatusCode := 200, Body := "Todo deleted successfully!" }, none,
           { logCall w0 (StoreCall.DeleteItem
               { Key := [("id", .S (pathParam request.PathParameters "id"))],
                 TableName := env.DYNAMODB_TABLE }) with
             table := removeKey w0.table (pathParam request.PathParameters "id") }) := by
    intro w0 h rq hrq
    unfold DeleteItem at h
    cases hf : env.storeFault w0.calls (StoreCall.DeleteItem
        { Key := [("id", .S (pathParam request.PathParameters "id"))],
          TableName := env.DYNAMODB_TABLE }) with
    | some e => simp [hf] at h
    | none =>
      by_cases hempty : pathParam request.PathParameters "id" = ""
      · simp only [hf] at h
        simp [hempty, keyOfKey_idKey_empty] at h
      · simp only [DeleteHandler, hrq, DeleteItem, hf, keyOfKey_idKey _ hempty]
  rw [hrun w hdel request rfl]
  refine ⟨rfl, rfl, findItem_removeKey_self _ _, fun h2 => ?_⟩
  rw [hrun _ h2 request2 hid]
  exact ⟨rfl, rfl, removeKey_removeKey _ _⟩

theorem DeleteHandler_idempotent_witness :
    (DeleteHandler refEnv deleteRequest (CreateHandler refEnv createRequest emptyWorld).2.2).1
        = { StatusCode := 200, Body := "Todo deleted successfully!" }
      ∧ (DeleteHandler refEnv deleteRequest
          (DeleteHandler refEnv deleteRequest
            (CreateHandler refEnv createRequest emptyWorld).2.2).2.2).1
        = { StatusCode := 200, Body := "Todo deleted successfully!" }
      ∧ (DeleteHandler refEnv deleteRequest
          (DeleteHandler refEnv deleteRequest
            (CreateHandler refEnv createRequest emptyWorld).2.2).2.2).2.2.table
        = (DeleteHandler refEnv deleteRequest
            (CreateHandler refEnv createRequest emptyWorld).2.2).2.2.table :=
  have h := DeleteHandler_idempotent refEnv deleteRequest deleteRequest
    (CreateHandler refEnv createRequest emptyWorld).2.2 rfl (by rfl)
  ⟨h.1, (h.2.2.2 (by rfl)).1, (h.2.2.2 (by rfl)).2.2⟩

end TodoService
